import Mathlib

/-!
Verification of the `nextdomen_backend` directory service against its
natural-language specification.

The development shallowly embeds the Rust sources:

* `src/raddb.rs` — the encrypted snapshot key/value store `RadDB`.
  File IO, AES-256-GCM and `bincode` are external crates; they are
  modelled as parameters (`ser`/`deser`, `enc`/`dec`, a `nonce`) and the
  theorems take their documented round-trip contracts as hypotheses.
* `src/models/sid.rs` — `SecurityIdentifier` and its string rendering.
* `src/ldap/filter.rs` — the LDAP filter parser and user matcher.
* `src/directory_service.rs` — `DirectoryService`.  The service stores
  every record as `bincode` bytes under a typed string key in `RadDB`;
  since each record type round-trips through its own key namespace, the
  store is modelled as a typed record of association lists, one per key
  namespace (`user:`, `group:`, `ou:`, `gpo:`, `username_index:`, …).
  `uuid::Uuid` is modelled as `Nat`; `chrono` timestamps as `Int`
  (`Utc::now()` as an arbitrary fixed instant `nowTime`); a Rust
  `HashMap` as an association list with insert-or-replace semantics;
  a Rust `HashSet` as a duplicate-free list whose order stands for the
  set's iteration order.
-/

namespace Nextdomen

/-- Model of `uuid::Uuid`: an abstract identifier. -/
abbrev Uuid := Nat

/-- Model of `chrono::DateTime<Utc>`: an instant on a linear time line. -/
abbrev Instant := Int

/-- The fixed instant standing for every `chrono::Utc::now()` call; the
claims under study never depend on clock values. -/
def nowTime : Instant := 0

/-- First-match lookup in an association list (the read side of a Rust
`HashMap`). -/
def lookupA {K V : Type} [DecidableEq K] : List (K × V) → K → Option V
  | [], _ => none
  | (k, v) :: rest, k' => if k = k' then some v else lookupA rest k'

/-- Insert-or-replace in an association list (`HashMap::insert`). -/
def put {K V : Type} [DecidableEq K] : List (K × V) → K → V → List (K × V)
  | [], k, v => [(k, v)]
  | (k', v') :: rest, k, v =>
      if k' = k then (k, v) :: rest else (k', v') :: put rest k v

/-- Remove a key from an association list (`HashMap::remove`). -/
def eraseKey {K V : Type} [DecidableEq K] : List (K × V) → K → List (K × V)
  | [], _ => []
  | (k', v') :: rest, k =>
      if k' = k then eraseKey rest k else (k', v') :: eraseKey rest k

/-- `HashSet::insert`: add the element if absent.  The list order models
the set's iteration order. -/
def insertSet {α : Type} [DecidableEq α] (s : List α) (x : α) : List α :=
  if x ∈ s then s else s ++ [x]

/-- `HashSet::remove`. -/
def eraseSet {α : Type} [DecidableEq α] (s : List α) (x : α) : List α :=
  s.filter (fun y => y ≠ x)

/-! ## RadDB (`src/raddb.rs`)

The store keeps a `HashMap<String, Vec<u8>>` cache and a file holding
`nonce (12 bytes) ++ AES-256-GCM(bincode(cache))`.  Bytes are modelled
as `List Nat`; the cipher and the serializer are parameters. -/

/-- Model of `RadDbError` (`src/raddb.rs`). -/
inductive RadDbError : Type
  | io : String → RadDbError
  | serialization : String → RadDbError
  | decryption : String → RadDbError
  | encryption : String → RadDbError
  | keyInvalid : RadDbError
deriving DecidableEq, Repr

/-- Model of the `RadDB` state: the in-memory cache plus the content of
the database file (`none` = the file does not exist). -/
structure RadDB where
  cache : List (String × List Nat)
  file : Option (List Nat)
deriving DecidableEq, Repr

/-- `RadDB::get`: cache lookup only. -/
def RadDB.get (db : RadDB) (key : String) : Option (List Nat) :=
  lookupA db.cache key

/-- `RadDB::contains_key`. -/
def RadDB.containsKey (db : RadDB) (key : String) : Bool :=
  (lookupA db.cache key).isSome

/-- `RadDB::flush`: serialize the cache (`ser`), encrypt under a fresh
`nonce` (`enc`), overwrite the file with `nonce ++ ciphertext`. -/
def RadDB.flushWith (ser : List (String × List Nat) → List Nat)
    (enc : List Nat → List Nat) (nonce : List Nat) (db : RadDB) : RadDB :=
  { db with file := some (nonce ++ enc (ser db.cache)) }

/-- `RadDB::set`: insert into the cache, then `flush`. -/
def RadDB.set (ser : List (String × List Nat) → List Nat)
    (enc : List Nat → List Nat) (nonce : List Nat) (db : RadDB)
    (key : String) (value : List Nat) : RadDB :=
  RadDB.flushWith ser enc nonce { db with cache := put db.cache key value }

/-- `RadDB::remove`: drop the key from the cache only (no flush), and
report whether it was present. -/
def RadDB.remove (db : RadDB) (key : String) : Bool × RadDB :=
  ((lookupA db.cache key).isSome, { db with cache := eraseKey db.cache key })

/-- `RadDB::open` / `RadDB::load`: read the file if present; an empty or
missing file is an empty database; a file shorter than 12 bytes is an
error; otherwise split off the 12-byte nonce, decrypt (`dec`) and
deserialize (`deser`). -/
def RadDB.openWith (deser : List Nat → Option (List (String × List Nat)))
    (dec : List Nat → List Nat → Option (List Nat))
    (file : Option (List Nat)) : Except RadDbError RadDB :=
  match file with
  | none => .ok { cache := [], file := none }
  | some bytes =>
      if bytes = [] then .ok { cache := [], file := some bytes }
      else if bytes.length < 12 then .error (.decryption "File too short")
      else
        match dec (bytes.take 12) (bytes.drop 12) with
        | none => .error (.decryption "AES-GCM decryption failed")
        | some plaintext =>
            match deser plaintext with
            | none => .error (.serialization "bincode deserialize failed")
            | some data => .ok { cache := data, file := some bytes }

/-- A freshly created database over a missing file. -/
def RadDB.empty : RadDB := { cache := [], file := none }

/-- Store a list of key/value pairs through `RadDB::set` one by one. -/
def RadDB.storeAll (ser : List (String × List Nat) → List Nat)
    (enc : List Nat → List Nat) (nonce : List Nat) (db : RadDB)
    (pairs : List (String × List Nat)) : RadDB :=
  pairs.foldl (fun d p => RadDB.set ser enc nonce d p.1 p.2) db

/-- The map described by a list of insertions (last write wins). -/
def mapOf (pairs : List (String × List Nat)) : List (String × List Nat) :=
  pairs.foldl (fun m p => put m p.1 p.2) []

/-! ## SecurityIdentifier (`src/models/sid.rs`) -/

/-- Model of `SecurityIdentifier`: `revision: u8`, `authority: [u8; 6]`
(as a 6-element list of byte values), `sub_authorities: Vec<u32>`. -/
structure SecurityIdentifier where
  revision : Nat
  authority : List Nat
  subAuthorities : List Nat
deriving DecidableEq, Repr

/-- The authority value computed by `SecurityIdentifier::to_string`:

    u64::from_be_bytes([0,0,0,0,0,0,a[0],a[1]])
      + (a[2] << 40) + (a[3] << 32) + (a[4] << 24) + (a[5] << 16)

No `u64` overflow is possible for byte-sized entries, so plain `Nat`
arithmetic is exact. -/
def sidAuthorityValue (a : List Nat) : Nat :=
  (a.getD 0 0) * 2 ^ 8 + a.getD 1 0
    + (a.getD 2 0) * 2 ^ 40 + (a.getD 3 0) * 2 ^ 32
    + (a.getD 4 0) * 2 ^ 24 + (a.getD 5 0) * 2 ^ 16

/-- Modelled from the spec: "authority rendered as a single decimal
built from the 6 big-endian bytes" — the 48-bit big-endian value of the
authority array.  Kept separate from `sidAuthorityValue` (which mirrors
the source) so the two renderings can be compared. -/
def specSidAuthorityValue (a : List Nat) : Nat :=
  (a.getD 0 0) * 2 ^ 40 + (a.getD 1 0) * 2 ^ 32 + (a.getD 2 0) * 2 ^ 24
    + (a.getD 3 0) * 2 ^ 16 + (a.getD 4 0) * 2 ^ 8 + a.getD 5 0

/-- `SecurityIdentifier::to_string`:
`format!("S-{}-{}-{}", revision, auth, subs.join("-"))`. -/
def SecurityIdentifier.render (sid : SecurityIdentifier) : String :=
  "S-" ++ toString sid.revision ++ "-"
    ++ toString (sidAuthorityValue sid.authority) ++ "-"
    ++ String.intercalate "-" (sid.subAuthorities.map toString)

/-- The spec's rendering of the same struct, differing only in the
authority arithmetic. -/
def specSidRender (sid : SecurityIdentifier) : String :=
  "S-" ++ toString sid.revision ++ "-"
    ++ toString (specSidAuthorityValue sid.authority) ++ "-"
    ++ String.intercalate "-" (sid.subAuthorities.map toString)

/-! ## Directory data model (`src/models/*.rs`)

Each structure keeps exactly the fields the claims under study read or
write; omitted fields (password data, MFA, metadata, …) are never
touched by the verified operations. -/

/-- Model of `User` (`src/models/user.rs`). -/
structure User where
  id : Uuid
  username : String
  userPrincipalName : String
  email : Option String
  displayName : Option String
  domains : List Uuid
  organizationalUnit : Option Uuid
  createdAt : Instant
  updatedAt : Instant
deriving DecidableEq, Repr

/-- Model of `Group` (`src/models/group.rs`). -/
structure Group where
  id : Uuid
  samAccountName : String
  members : List Uuid
deriving DecidableEq, Repr

/-- Model of `OrganizationalUnit` (`src/models/ou.rs`). -/
structure OrganizationalUnit where
  id : Uuid
  name : String
  dn : String
  parent : Option Uuid
  linkedGpos : List Uuid
  blockInheritance : Bool
  enforced : Bool
  gplink : String
  gpoptions : Nat
  updatedAt : Instant
deriving DecidableEq, Repr

/-- `OrganizationalUnit::update_gplink`: rebuild `gplink` as the
concatenation of `[<gpo_id>;<flag>]` with `flag = 2` when the OU's
`enforced` flag is set, else `1`. -/
def OrganizationalUnit.updateGplink (ou : OrganizationalUnit) :
    OrganizationalUnit :=
  { ou with
    gplink := ou.linkedGpos.foldl
      (fun acc g =>
        acc ++ "[" ++ toString g ++ ";"
          ++ toString (if ou.enforced then (2 : Nat) else 1) ++ "]") "" }

/-- `OrganizationalUnit::update_gpoptions`: `1` iff `block_inheritance`. -/
def OrganizationalUnit.updateGpoptions (ou : OrganizationalUnit) :
    OrganizationalUnit :=
  { ou with gpoptions := if ou.blockInheritance then 1 else 0 }

/-- Model of `GroupPolicy` (`src/models/policy.rs`). -/
structure GroupPolicy where
  id : Uuid
  name : String
  enforced : Bool
  order : Nat
  linkedTo : List Uuid
deriving DecidableEq, Repr

/-! ## LDAP filters (`src/ldap/filter.rs`) -/

/-- Model of the `Filter` enum. -/
inductive Filter : Type
  | equality : String → String → Filter
  | greaterOrEqual : String → String → Filter
  | lessOrEqual : String → String → Filter
  | approxMatch : String → String → Filter
  | substring : String → Option String → List String → Option String → Filter
  | extensible : String → Option String → Bool → String → Filter
  | and : List Filter → Filter
  | or : List Filter → Filter
  | not : Filter → Filter
  | present : String → Filter
deriving BEq, Repr

/-- Model of `LdapFilterError`. -/
inductive LdapFilterError : Type
  | invalidSyntax : LdapFilterError
  | notImplemented : LdapFilterError
deriving DecidableEq, Repr

/-- Index of the first occurrence of a character (`str::find`). -/
def firstIdxOf (c : Char) : List Char → Option Nat
  | [] => none
  | x :: xs =>
      if x = c then some 0 else (firstIdxOf c xs).map (fun i => i + 1)

/-- Index of the last occurrence of a character (`str::rfind`). -/
def lastIdxOf (c : Char) (cs : List Char) : Option Nat :=
  (firstIdxOf c cs.reverse).map (fun i => cs.length - 1 - i)

/-- One step of `str::trim_end_matches`, with fuel: repeatedly strip the
trailing occurrence of `pat`. -/
def trimEndF : Nat → List Char → List Char → List Char
  | 0, cs, _ => cs
  | n + 1, cs, pat =>
      if pat ≠ [] ∧ pat.isSuffixOf cs then
        trimEndF n (cs.take (cs.length - pat.length)) pat
      else cs

/-- `str::trim_end_matches`. -/
def trimEndMatches (cs pat : List Char) : List Char :=
  trimEndF (cs.length + 1) cs pat

/-- `str::split('*')` on a character list. -/
def splitOnChar (c : Char) : List Char → List (List Char)
  | [] => [[]]
  | x :: xs =>
      let rest := splitOnChar c xs
      if x = c then [] :: rest
      else
        match rest with
        | [] => [[x]]
        | r :: rs => (x :: r) :: rs

/-- `Filter::parse_substring`: split the pattern on `*` and classify the
pieces into initial / any / final. -/
def parseSubstringF (attr : String) (pattern : List Char) :
    Except LdapFilterError Filter :=
  let parts := splitOnChar '*' pattern
  let initial :=
    match parts.head? with
    | some p => if p ≠ [] then some p.asString else none
    | none => none
  let middle := (parts.drop 1).take (parts.length - 2)
  let anyParts := (middle.filter (fun p => p ≠ [])).map List.asString
  let finalPart :=
    match parts.getLast? with
    | some p => if p ≠ [] then some p.asString else none
    | none => none
  .ok (Filter.substring attr initial anyParts finalPart)

/-- The tail of `Filter::parse_simple` after the extensible-match cases:
present / substring / `>=` / `<=` / equality, in the source's order. -/
def parseSimpleTail (attr value : List Char) : Except LdapFilterError Filter :=
  if value = ['*'] then .ok (Filter.present attr.asString)
  else if value.contains '*' then parseSubstringF attr.asString value
  else if (">=".toList).isSuffixOf attr then
    .ok (Filter.greaterOrEqual (trimEndMatches attr ">=".toList).asString
      value.asString)
  else if ("<=".toList).isSuffixOf attr then
    .ok (Filter.lessOrEqual (trimEndMatches attr "<=".toList).asString
      value.asString)
  else .ok (Filter.equality attr.asString value.asString)

/-- `Filter::parse_simple`: split at the first `=`, then apply the
extensible / present / substring / `>=` / `<=` / equality cases in the
source's order. -/
def parseSimpleF (s : List Char) : Except LdapFilterError Filter :=
  match firstIdxOf '=' s with
  | none => .error .invalidSyntax
  | some eqPos =>
      let attr := s.take eqPos
      let value := s.drop (eqPos + 1)
      if (":dn".toList).isSuffixOf attr then
        .ok (Filter.extensible (trimEndMatches attr ":dn".toList).asString
          none true value.asString)
      else
        match lastIdxOf ':' attr with
        | some rulePos =>
            let rule := attr.drop (rulePos + 1)
            let baseAttr := attr.take rulePos
            if ("Match".toList).isSuffixOf rule then
              .ok (Filter.extensible baseAttr.asString (some rule.asString)
                false value.asString)
            else parseSimpleTail attr value
        | none => parseSimpleTail attr value

/-- `Filter::parse_list`'s scan: cut the input into its top-level
parenthesized chunks, tracking nesting depth; unbalanced input fails. -/
def topChunks : List Char → Int → List Char → List (List Char) →
    Option (List (List Char))
  | [], depth, _, acc => if depth ≠ 0 then none else some acc.reverse
  | c :: rest, depth, cur, acc =>
      if c = '(' then
        topChunks rest (depth + 1) (if depth = 0 then ['('] else cur ++ [c]) acc
      else if c = ')' then
        if depth - 1 = 0 then topChunks rest (depth - 1) [] ((cur ++ [c]) :: acc)
        else if depth - 1 < 0 then none
        else topChunks rest (depth - 1) (cur ++ [c]) acc
      else
        topChunks rest depth (if 0 < depth then cur ++ [c] else cur) acc

/-- `str::trim` on a character list (leading and trailing whitespace). -/
def trimChars (cs : List Char) : List Char :=
  ((cs.dropWhile Char.isWhitespace).reverse.dropWhile Char.isWhitespace).reverse

mutual

/-- `Filter::parse` (with recursion fuel; `Filter.parse` below supplies
a sufficient amount): trim, require an outer `(...)`, parse the inside.
The parser runs on character lists; on the ASCII filter syntax this
coincides with the source's byte slicing. -/
def parseF : Nat → List Char → Except LdapFilterError Filter
  | 0, _ => .error .invalidSyntax
  | n + 1, s =>
      let t := trimChars s
      if t.head? = some '(' ∧ t.getLast? = some ')' then
        parseInnerF n (t.drop 1).dropLast
      else .error .invalidSyntax
termination_by structural n => n

/-- `Filter::parse_inner`: dispatch on the leading `&`, `|`, `!`. -/
def parseInnerF : Nat → List Char → Except LdapFilterError Filter
  | 0, _ => .error .invalidSyntax
  | n + 1, s =>
      match s with
      | '&' :: rest => parseListF n rest Filter.and
      | '|' :: rest => parseListF n rest Filter.or
      | '!' :: rest => (parseInnerF n rest).map Filter.not
      | _ => parseSimpleF s
termination_by structural n => n

/-- `Filter::parse_list`: parse each top-level chunk and combine. -/
def parseListF : Nat → List Char → (List Filter → Filter) →
    Except LdapFilterError Filter
  | 0, _, _ => .error .invalidSyntax
  | n + 1, s, ctor =>
      match topChunks s 0 [] [] with
      | none => .error .invalidSyntax
      | some chunks =>
          (chunks.mapM (fun ch => parseF n ch)).map ctor
termination_by structural n => n

end

/-- `Filter::parse` at its entry point, with enough fuel for any input
(every recursive call strictly shrinks the string). -/
def Filter.parse (s : String) : Except LdapFilterError Filter :=
  parseF (s.toList.length + 1) s.toList

/-- `char::to_ascii_lowercase`. -/
def asciiLower (c : Char) : Char :=
  if 'A' ≤ c && c ≤ 'Z' then Char.ofNat (c.toNat + 32) else c

/-- `str::eq_ignore_ascii_case`. -/
def eqIgnoreAsciiCase (a b : String) : Bool :=
  a.toList.map asciiLower == b.toList.map asciiLower

/-- `str::contains(&str)`: substring test on character lists. -/
def isInfixOfChars (pat : List Char) : List Char → Bool
  | [] => pat.isEmpty
  | t :: ts => pat.isPrefixOf (t :: ts) || isInfixOfChars pat ts

/-- `matches_object_class` (`src/ldap/filter.rs`). -/
def matchesObjectClass (value : String) (valid : List String) : Bool :=
  valid.any (fun cls => eqIgnoreAsciiCase cls value)

/-- `Filter::matches_user`.  `parseTs` stands for
`chrono::DateTime::parse_from_rfc3339`; the code falls back to the epoch
(`unwrap_or_default`, modelled as `0`) when parsing fails.  The `And`,
`Or`, `Not`, `ApproxMatch` and `Extensible` cases hit the source's
catch-all `_ => false`. -/
def matchesUser (parseTs : String → Option Instant) :
    Filter → User → Bool
  | .equality attr value, u =>
      if attr = "sAMAccountName" then eqIgnoreAsciiCase u.username value
      else if attr = "cn" || attr = "name" then
        match u.displayName with
        | some n => eqIgnoreAsciiCase n value
        | none => false
      else if attr = "mail" || attr = "email" then
        match u.email with
        | some e => eqIgnoreAsciiCase e value
        | none => false
      else if attr = "userPrincipalName" then
        eqIgnoreAsciiCase u.userPrincipalName value
      else if attr = "objectClass" then
        matchesObjectClass value ["user", "person"]
      else false
  | .substring attr initial anyParts finalPart, u =>
      match
        (if attr = "sAMAccountName" then some u.username
         else if attr = "cn" || attr = "name" then some (u.displayName.getD "")
         else if attr = "mail" || attr = "email" then some (u.email.getD "")
         else none) with
      | none => false
      | some text =>
          (match initial with
           | some init => text.startsWith init
           | none => true)
          && anyParts.all (fun part => isInfixOfChars part.toList text.toList)
          && (match finalPart with
              | some fin => text.endsWith fin
              | none => true)
  | .greaterOrEqual attr value, u =>
      if attr = "created_at" then decide (u.createdAt ≥ (parseTs value).getD 0)
      else false
  | .lessOrEqual attr value, u =>
      if attr = "created_at" then decide (u.createdAt ≤ (parseTs value).getD 0)
      else false
  | .present attr, u =>
      if attr = "sAMAccountName" then decide (u.username ≠ "")
      else if attr = "cn" || attr = "name" then u.displayName.isSome
      else if attr = "mail" || attr = "email" then u.email.isSome
      else false
  | _, _ => false


/-! ## DirectoryService (`src/directory_service.rs`)

The service stores each record as `bincode` bytes at a typed string key
(`user:<id>`, `username_index:<name>`, …).  Because every key namespace
holds one record type and `store`/`load` round-trip through `bincode`,
the store is modelled as a typed record of association lists, one field
per key namespace. -/

/-- Model of `DirectoryError`. -/
inductive DirectoryError : Type
  | dbError : RadDbError → DirectoryError
  | serialization : String → DirectoryError
  | notFound : String → DirectoryError
  | alreadyExists : String → DirectoryError
  | invalidInput : String → DirectoryError
deriving DecidableEq, Repr

/-- `impl From<&str> for DirectoryError`: a bare string message becomes
`InvalidInput` — this is what `.ok_or("...")?` produces. -/
def strToDirectoryError (s : String) : DirectoryError :=
  DirectoryError.invalidInput s

/-- The directory state: one association list per key namespace of the
underlying `RadDB`.  `memberIndex` and `gpoLink` values model the stored
`HashSet<Uuid>`s. -/
structure DirState where
  users : List (Uuid × User)
  usernameIndex : List (String × Uuid)
  emailIndex : List (String × Uuid)
  allUsersIndex : List Uuid
  groups : List (Uuid × Group)
  samAccountNameIndex : List (String × Uuid)
  allGroupsIndex : List Uuid
  memberIndex : List (Uuid × List Uuid)
  ous : List (Uuid × OrganizationalUnit)
  dnIndex : List (String × Uuid)
  allOusIndex : List Uuid
  gpos : List (Uuid × GroupPolicy)
  gpoLink : List (Uuid × List Uuid)
  allGposIndex : List Uuid
deriving DecidableEq, Repr

/-- The state of a service opened over an empty database. -/
def DirState.empty : DirState :=
  ⟨[], [], [], [], [], [], [], [], [], [], [], [], [], []⟩

/-- `get_user`. -/
def get_user (s : DirState) (id : Uuid) : Option User :=
  lookupA s.users id

/-- `find_user_by_username`: index lookup (exact key), then primary
lookup. -/
def find_user_by_username (s : DirState) (username : String) : Option User :=
  (lookupA s.usernameIndex username).bind (lookupA s.users)

/-- `find_user_by_email`. -/
def find_user_by_email (s : DirState) (email : String) : Option User :=
  (lookupA s.emailIndex email).bind (lookupA s.users)

/-- `create_user`: uniqueness checks, write the record, upsert the
username/email indexes, append to `all_users_index`. -/
def create_user (s : DirState) (user : User) :
    Except DirectoryError DirState :=
  if (find_user_by_username s user.username).isSome then
    .error (.alreadyExists
      ("User with username " ++ user.username ++ " already exists"))
  else if (match user.email with
           | some email => (find_user_by_email s email).isSome
           | none => false) then
    .error (.alreadyExists
      ("User with email " ++ user.email.getD "" ++ " already exists"))
  else
    let s1 := { s with users := put s.users user.id user }
    let s2 := { s1 with
      usernameIndex := put s1.usernameIndex user.username user.id }
    let s3 :=
      match user.email with
      | some email =>
          { s2 with emailIndex := put s2.emailIndex email user.id }
      | none => s2
    .ok { s3 with allUsersIndex := s3.allUsersIndex ++ [user.id] }

/-- `get_all_users`: resolve `all_users_index`, skipping dangling ids. -/
def get_all_users (s : DirState) : List User :=
  s.allUsersIndex.filterMap (lookupA s.users)

/-- `get_group`. -/
def get_group (s : DirState) (id : Uuid) : Option Group :=
  lookupA s.groups id

/-- `find_group_by_sam_account_name`: the index key is upper-folded. -/
def find_group_by_sam_account_name (s : DirState) (sam : String) :
    Option Group :=
  (lookupA s.samAccountNameIndex sam.toUpper).bind (lookupA s.groups)

/-- `find_groups_by_member`: resolve the `member_index` set. -/
def find_groups_by_member (s : DirState) (userId : Uuid) : List Group :=
  ((lookupA s.memberIndex userId).getD []).filterMap (lookupA s.groups)

/-- `add_member_to_index`: insert `groupId` into `member_index:<userId>`. -/
def add_member_to_index (s : DirState) (userId groupId : Uuid) : DirState :=
  let ids := (lookupA s.memberIndex userId).getD []
  { s with memberIndex := put s.memberIndex userId (insertSet ids groupId) }

/-- `remove_member_from_index`. -/
def remove_member_from_index (s : DirState) (userId groupId : Uuid) :
    DirState :=
  let ids := (lookupA s.memberIndex userId).getD []
  { s with memberIndex := put s.memberIndex userId (eraseSet ids groupId) }

/-- `create_group`. -/
def create_group (s : DirState) (group : Group) :
    Except DirectoryError DirState :=
  if (find_group_by_sam_account_name s group.samAccountName).isSome then
    .error (.alreadyExists ("Group with sam_account_name "
      ++ group.samAccountName ++ " already exists"))
  else
    let s1 := { s with groups := put s.groups group.id group }
    let samIdx :=
      put s1.samAccountNameIndex group.samAccountName.toUpper group.id
    let s2 := { s1 with samAccountNameIndex := samIdx }
    let s3 := group.members.foldl
      (fun st m => add_member_to_index st m group.id) s2
    .ok { s3 with allGroupsIndex := s3.allGroupsIndex ++ [group.id] }

/-- `add_member_to_group`: a missing group is `NotFound` (explicit
`match` in the source). -/
def add_member_to_group (s : DirState) (groupId userId : Uuid) :
    Except DirectoryError DirState :=
  match lookupA s.groups groupId with
  | none => .error (.notFound "Group not found")
  | some group =>
      if userId ∈ group.members then .ok s
      else
        let group2 := { group with members := group.members ++ [userId] }
        let s1 := { s with groups := put s.groups group2.id group2 }
        .ok (add_member_to_index s1 userId groupId)

/-- `remove_member_from_group`: a missing group is `NotFound`. -/
def remove_member_from_group (s : DirState) (groupId userId : Uuid) :
    Except DirectoryError DirState :=
  match lookupA s.groups groupId with
  | none => .error (.notFound "Group not found")
  | some group =>
      if userId ∈ group.members then
        let group2 :=
          { group with members := group.members.filter (fun m => m ≠ userId) }
        let s1 := { s with groups := put s.groups group2.id group2 }
        .ok (remove_member_from_index s1 userId groupId)
      else .ok s

/-- `delete_group`: the missing-group message goes through
`.ok_or("Group not found")?`, hence `From<&str>` = `InvalidInput`. -/
def delete_group (s : DirState) (groupId : Uuid) :
    Except DirectoryError DirState :=
  match lookupA s.groups groupId with
  | none => .error (strToDirectoryError "Group not found")
  | some group =>
      let samIdx := eraseKey s.samAccountNameIndex group.samAccountName.toUpper
      let s1 := { s with samAccountNameIndex := samIdx }
      let s2 := { s1 with
        allGroupsIndex := s1.allGroupsIndex.filter (fun i => i ≠ groupId) }
      let s3 := group.members.foldl
        (fun st u => remove_member_from_index st u groupId) s2
      .ok { s3 with groups := eraseKey s3.groups groupId }

/-- `delete_user`: `.ok_or("User not found")?` = `InvalidInput`; then
cascade out of every group, trim `all_users_index`, drop the record and
its indexes. -/
def delete_user (s : DirState) (userId : Uuid) :
    Except DirectoryError DirState :=
  match lookupA s.users userId with
  | none => .error (strToDirectoryError "User not found")
  | some user => do
      let s1 ← (find_groups_by_member s userId).foldlM
        (fun st g => remove_member_from_group st g.id userId) s
      let s2 := { s1 with
        allUsersIndex := s1.allUsersIndex.filter (fun i => i ≠ userId) }
      let s3 := { s2 with users := eraseKey s2.users userId }
      let s4 := { s3 with
        usernameIndex := eraseKey s3.usernameIndex user.username }
      let s5 :=
        match user.email with
        | some email => { s4 with emailIndex := eraseKey s4.emailIndex email }
        | none => s4
      pure s5

/-- `rename_user`: `.ok_or("User not found")?` = `InvalidInput`; then a
conflict check ignoring self, index swap, record update.  (The source's
conflict message quotes the name; the quotes are elided here.) -/
def rename_user (s : DirState) (userId : Uuid)
    (newUsername : Option String) (newDisplayName : Option String) :
    Except DirectoryError DirState :=
  match lookupA s.users userId with
  | none => .error (strToDirectoryError "User not found")
  | some user =>
      let step : Except DirectoryError (DirState × User) :=
        match newUsername with
        | some name =>
            if (match find_user_by_username s name with
                | some other => decide (other.id ≠ userId)
                | none => false) then
              .error (.alreadyExists ("Username " ++ name ++ " already taken"))
            else
              let s1 := { s with
                usernameIndex := eraseKey s.usernameIndex user.username }
              let s2 := { s1 with
                usernameIndex := put s1.usernameIndex name userId }
              .ok (s2, { user with username := name })
        | none => .ok (s, user)
      match step with
      | .error e => .error e
      | .ok (s2, user2) =>
          let user3 :=
            match newDisplayName with
            | some d => { user2 with displayName := some d }
            | none => user2
          let user4 := { user3 with updatedAt := nowTime }
          .ok { s2 with users := put s2.users userId user4 }

/-- `get_ou`. -/
def get_ou (s : DirState) (id : Uuid) : Option OrganizationalUnit :=
  lookupA s.ous id

/-- `create_ou`: write the record, upsert `dn_index`, append to
`all_ous_index` (no error paths besides the store itself). -/
def create_ou (s : DirState) (ou : OrganizationalUnit) : DirState :=
  let s1 := { s with ous := put s.ous ou.id ou }
  let s2 := { s1 with dnIndex := put s1.dnIndex ou.dn ou.id }
  { s2 with allOusIndex := s2.allOusIndex ++ [ou.id] }

/-- `find_ou_by_dn`. -/
def find_ou_by_dn (s : DirState) (dn : String) : Option OrganizationalUnit :=
  (lookupA s.dnIndex dn).bind (lookupA s.ous)

/-- `delete_ou`: `.ok_or("OU not found")?` = `InvalidInput`. -/
def delete_ou (s : DirState) (ouId : Uuid) : Except DirectoryError DirState :=
  match lookupA s.ous ouId with
  | none => .error (strToDirectoryError "OU not found")
  | some ou =>
      let s1 := { s with dnIndex := eraseKey s.dnIndex ou.dn }
      let s2 := { s1 with
        allOusIndex := s1.allOusIndex.filter (fun i => i ≠ ouId) }
      .ok { s2 with ous := eraseKey s2.ous ouId }

/-- `get_gpo`. -/
def get_gpo (s : DirState) (id : Uuid) : Option GroupPolicy :=
  lookupA s.gpos id

/-- `create_gpo`: write the record and upsert `gpo_link:<target>` for
every `linked_to` target.  The source never touches `all_gpos_index`. -/
def create_gpo (s : DirState) (gpo : GroupPolicy) : DirState :=
  let s1 := { s with gpos := put s.gpos gpo.id gpo }
  let links := gpo.linkedTo.foldl
    (fun m target =>
      put m target (insertSet ((lookupA m target).getD []) gpo.id))
    s1.gpoLink
  { s1 with gpoLink := links }

/-- `find_gpos_for_ou`: resolve the `gpo_link` set, skipping dangling
ids; the list order models the `HashSet` iteration order. -/
def find_gpos_for_ou (s : DirState) (ouId : Uuid) : List GroupPolicy :=
  ((lookupA s.gpoLink ouId).getD []).filterMap (lookupA s.gpos)

/-- `find_gpos_for_domain`: same index, keyed by the domain id. -/
def find_gpos_for_domain (s : DirState) (domainId : Uuid) :
    List GroupPolicy :=
  ((lookupA s.gpoLink domainId).getD []).filterMap (lookupA s.gpos)

/-- `link_gpo_to_ou`: a missing OU is `NotFound`; if the link is new,
push it, set `ou.enforced = true`, recompute `gplink`, bump
`updated_at`, write the OU, and upsert `gpo_link:<ou_id>`. -/
def link_gpo_to_ou (s : DirState) (gpoId ouId : Uuid) :
    Except DirectoryError DirState :=
  match lookupA s.ous ouId with
  | none => .error (.notFound "OU not found")
  | some ou =>
      if gpoId ∈ ou.linkedGpos then .ok s
      else
        let ou2 := { ou with
          linkedGpos := ou.linkedGpos ++ [gpoId], enforced := true }
        let ou3 := ou2.updateGplink
        let ou4 := { ou3 with updatedAt := nowTime }
        let s1 := { s with ous := put s.ous ou4.id ou4 }
        let ids := (lookupA s1.gpoLink ouId).getD []
        .ok { s1 with gpoLink := put s1.gpoLink ouId (insertSet ids gpoId) }

/-- `set_block_inheritance`: a missing OU is `NotFound`; set the flag,
recompute `gpoptions`, bump `updated_at`, write the OU back. -/
def set_block_inheritance (s : DirState) (ouId : Uuid) (block : Bool) :
    Except DirectoryError DirState :=
  match lookupA s.ous ouId with
  | none => .error (.notFound "OU not found")
  | some ou =>
      let ou2 := { ou with blockInheritance := block }
      let ou3 := ou2.updateGpoptions
      let ou4 := { ou3 with updatedAt := nowTime }
      .ok { s with ous := put s.ous ou4.id ou4 }

/-! ## GPO resolution (`get_effective_gpos_for_ou` / `..._for_user`) -/

/-- The sort key of `gpos.sort_by(|a, b|
b.enforced.cmp(&a.enforced).then_with(|| a.order.cmp(&b.order)))`:
`a` may precede `b` iff the comparator does not return `Greater`,
i.e. enforced-descending, then order-ascending. -/
def gpoLe (a b : GroupPolicy) : Bool :=
  (a.enforced && !b.enforced)
    || (a.enforced == b.enforced && decide (a.order ≤ b.order))

/-- Insert into a sorted list, after every element that may precede the
new one — the insertion step of a stable sort. -/
def insertLe {α : Type} (le : α → α → Bool) (x : α) : List α → List α
  | [] => [x]
  | y :: ys => if le y x then y :: insertLe le x ys else x :: y :: ys

/-- Stable insertion sort.  Rust's `slice::sort_by` is a stable sort;
for a fixed total preorder every stable sort computes the same list, so
this is an exact model of the source's sort. -/
def stableSortBy {α : Type} (le : α → α → Bool) : List α → List α → List α
  | acc, [] => acc
  | acc, x :: xs => stableSortBy le (insertLe le x acc) xs

/-- The per-level GPO sort of `get_effective_gpos_for_ou` and the final
sort of `get_effective_gpos_for_user`. -/
def sortGpos (l : List GroupPolicy) : List GroupPolicy :=
  stableSortBy gpoLe [] l

/-- The dedup-by-id pass (`seen.insert(gpo.id)`), keeping first
occurrences. -/
def dedupByIdGo (seen : List Uuid) : List GroupPolicy → List GroupPolicy
  | [] => []
  | g :: gs =>
      if g.id ∈ seen then dedupByIdGo seen gs
      else g :: dedupByIdGo (g.id :: seen) gs

/-- Deduplicate GPOs by id, preserving first-seen order. -/
def dedupById (l : List GroupPolicy) : List GroupPolicy :=
  dedupByIdGo [] l

/-- The ancestor walk of `get_effective_gpos_for_ou`, with recursion
fuel (`get_effective_gpos_for_ou` supplies `|ous| + 1`, which theorem
`gposLoopF_isSome` below proves sufficient; `none` = fuel ran out).
Each round: revisiting a visited OU is the circularity error; a missing
OU is `NotFound`; an OU with `block_inheritance` set, met when the
accumulator is already non-empty, contributes only its enforced GPOs
(unsorted) and stops; otherwise its GPOs are sorted by
(enforced desc, order asc), appended, and the walk moves to the parent.
The source inserts into `visited` just before the record lookup; since
a missing OU ends the walk, inserting only on the recursing path is
observationally identical. -/
def gposLoopF (s : DirState) :
    Nat → List Uuid → List GroupPolicy → Option Uuid →
    Option (Except DirectoryError (List GroupPolicy))
  | 0, _, _, _ => none
  | _ + 1, _, acc, none => some (.ok acc)
  | n + 1, visited, acc, some ouId =>
      if ouId ∈ visited then
        some (.error (.invalidInput "Circular OU hierarchy detected"))
      else
        match lookupA s.ous ouId with
        | none => some (.error (.notFound "OU not found"))
        | some ou =>
            if !acc.isEmpty && ou.blockInheritance then
              some (.ok (acc
                ++ (find_gpos_for_ou s ouId).filter (fun g => g.enforced)))
            else
              gposLoopF s n (ouId :: visited)
                (acc ++ sortGpos (find_gpos_for_ou s ouId)) ou.parent

/-- `get_effective_gpos_for_ou`: run the walk (the fuel bound is proved
sufficient below, so the `none` default is unreachable), then dedup by
id preserving first-seen order. -/
def get_effective_gpos_for_ou (s : DirState) (ouId : Uuid) :
    Except DirectoryError (List GroupPolicy) :=
  match gposLoopF s (s.ous.length + 1) [] [] (some ouId) with
  | some r => r.map dedupById
  | none => .error (.dbError (.io "unreachable: fuel exhausted"))

/-- The pure parent-chain walk: does following `parent` links from the
given OU revisit an already-visited OU (before falling off the stored
map)? -/
def walkRevisitsF (s : DirState) : Nat → List Uuid → Option Uuid → Bool
  | 0, _, _ => false
  | _ + 1, _, none => false
  | n + 1, visited, some x =>
      if x ∈ visited then true
      else
        match lookupA s.ous x with
        | none => false
        | some ou => walkRevisitsF s n (x :: visited) ou.parent

/-- Parent-chain circularity as seen from `ouId`. -/
def walkRevisits (s : DirState) (ouId : Uuid) : Bool :=
  walkRevisitsF s (s.ous.length + 1) [] (some ouId)

/-- No stored OU blocks inheritance (under this condition the walk of
`get_effective_gpos_for_ou` never takes the cut-off branch, so the pure
parent-chain walk describes it exactly). -/
def noBlocks (s : DirState) : Prop :=
  ∀ p ∈ s.ous, p.2.blockInheritance = false

instance (s : DirState) : Decidable (noBlocks s) := by
  unfold noBlocks; infer_instance

/-- The walk's termination measure: how many stored OU keys are not yet
visited.  Each recursing round of `gposLoopF` visits a stored,
previously unvisited key, so this strictly decreases. -/
def remainOus (s : DirState) (visited : List Uuid) : Nat :=
  ((s.ous.map Prod.fst).filter (fun k => decide (k ∉ visited))).length

/-- `get_effective_gpos_for_user`: user lookup (`NotFound` on a missing
user), the OU walk for `user.organizational_unit` (errors propagate),
the group loop (a no-op in the source), `gpo_link` of `user.domains[0]`,
then dedup by id and the final (enforced desc, order asc) sort. -/
def get_effective_gpos_for_user (s : DirState) (userId : Uuid) :
    Except DirectoryError (List GroupPolicy) :=
  match lookupA s.users userId with
  | none => .error (.notFound "User not found")
  | some user =>
      match (match user.organizationalUnit with
             | some ouId => get_effective_gpos_for_ou s ouId
             | none => .ok []) with
      | .error e => .error e
      | .ok fromOu =>
          let fromDomain :=
            match user.domains.head? with
            | some d => find_gpos_for_domain s d
            | none => []
          .ok (sortGpos (dedupById (fromOu ++ fromDomain)))

/-! ## Concrete scenarios used by the claims -/

/-- A blank OU record (`OrganizationalUnit::new` with the fields the
claims read). -/
def mkOu (id : Uuid) (name dn : String) (parent : Option Uuid) :
    OrganizationalUnit :=
  { id := id, name := name, dn := dn, parent := parent, linkedGpos := [],
    blockInheritance := false, enforced := false, gplink := "",
    gpoptions := 0, updatedAt := nowTime }

/-- A GPO record with the fields the claims read. -/
def mkGpo (id : Uuid) (name : String) (enforced : Bool) (order : Nat) :
    GroupPolicy :=
  { id := id, name := name, enforced := enforced, order := order,
    linkedTo := [] }

/-- The spec's worked GPO-inheritance example: OU tree `root → child`. -/
def rootOu : OrganizationalUnit := mkOu 1 "root" "OU=root" none

/-- The child OU of the worked example. -/
def childOu : OrganizationalUnit := mkOu 2 "child" "OU=child,OU=root" (some 1)

/-- GPO `A{order=10, enforced=false}`. -/
def gpoA : GroupPolicy := mkGpo 100 "A" false 10

/-- GPO `B{order=5, enforced=false}`. -/
def gpoB : GroupPolicy := mkGpo 101 "B" false 5

/-- GPO `C{order=20, enforced=true}`. -/
def gpoC : GroupPolicy := mkGpo 102 "C" true 20

/-- The worked example's state: both OUs, all three GPOs, `A` and `C`
linked to `root`, `B` linked to `child` (link order `A`, `B`, `C`). -/
def c1State : Except DirectoryError DirState := do
  let s := create_ou (create_ou DirState.empty rootOu) childOu
  let s := create_gpo (create_gpo (create_gpo s gpoA) gpoB) gpoC
  let s ← link_gpo_to_ou s gpoA.id rootOu.id
  let s ← link_gpo_to_ou s gpoB.id childOu.id
  let s ← link_gpo_to_ou s gpoC.id rootOu.id
  pure s

/-- Resolve the worked example for `child`, before and after
`set_block_inheritance(child, true)`; returns the two id lists. -/
def c1Run : Except DirectoryError (List Uuid × List Uuid) := do
  let s ← c1State
  let before ← get_effective_gpos_for_ou s childOu.id
  let s2 ← set_block_inheritance s childOu.id true
  let after ← get_effective_gpos_for_ou s2 childOu.id
  pure (before.map (fun g => g.id), after.map (fun g => g.id))

/-- The worked example with `root`'s links made in the opposite order
(`C` before `A`), covering the other iteration order of the stored
two-element `gpo_link` set. -/
def c1RunSwapped : Except DirectoryError (List Uuid × List Uuid) := do
  let s := create_ou (create_ou DirState.empty rootOu) childOu
  let s := create_gpo (create_gpo (create_gpo s gpoA) gpoB) gpoC
  let s ← link_gpo_to_ou s gpoC.id rootOu.id
  let s ← link_gpo_to_ou s gpoB.id childOu.id
  let s ← link_gpo_to_ou s gpoA.id rootOu.id
  let before ← get_effective_gpos_for_ou s childOu.id
  let s2 ← set_block_inheritance s childOu.id true
  let after ← get_effective_gpos_for_ou s2 childOu.id
  pure (before.map (fun g => g.id), after.map (fun g => g.id))

/-- A two-OU parent cycle (`1 → 2 → 1`), used against claim C2. -/
def cycState : DirState :=
  create_ou (create_ou DirState.empty (mkOu 1 "a" "OU=a" (some 2)))
    (mkOu 2 "b" "OU=b" (some 1))

/-- A GPO linked to OU 1 of the blocked parent cycle below. -/
def gpoG : GroupPolicy := mkGpo 200 "G" false 1

/-- A two-OU parent cycle (`1 → 2 → 1`) where OU 2 sets
`block_inheritance` and OU 1 carries a linked GPO: the walk from OU 1
accumulates `[G]`, reaches OU 2 with a non-empty accumulator, takes the
inheritance cut-off and stops — before ever revisiting OU 1. -/
def blkCycState : DirState :=
  match (do
    let s := create_ou
      (create_ou DirState.empty (mkOu 1 "a" "OU=a" (some 2)))
      { mkOu 2 "b" "OU=b" (some 1) with blockInheritance := true }
    let s := create_gpo s gpoG
    link_gpo_to_ou s gpoG.id 1 : Except DirectoryError DirState) with
  | .ok s => s
  | .error _ => DirState.empty

/-- A user whose username and email carry mixed case. -/
def aliceUser : User :=
  { id := 10, username := "Alice", userPrincipalName := "Alice@corp.example",
    email := some "Alice@corp.example", displayName := none, domains := [],
    organizationalUnit := none, createdAt := 0, updatedAt := 0 }

/-- The NT-authority SID `{revision 1, authority [0,0,0,0,0,5],
sub_authorities [21, 513]}` — canonically `S-1-5-21-513`. -/
def ntSid : SecurityIdentifier :=
  { revision := 1, authority := [0, 0, 0, 0, 0, 5],
    subAuthorities := [21, 513] }

/-- The `created_at >= <rfc3339>` filter string of claim C8. -/
def c8FilterStr : String := "(created_at>=2024-01-01T00:00:00+00:00)"

/-- The timestamp value inside `c8FilterStr`. -/
def c8Value : String := "2024-01-01T00:00:00+00:00"

/-- A GPO linked to one target, used against claim C9. -/
def gpoLone : GroupPolicy :=
  { id := 5, name := "G", enforced := false, order := 1, linkedTo := [3] }

/-- Decidable equality of `Except` results (for concrete evaluation). -/
instance {ε α : Type} [DecidableEq ε] [DecidableEq α] :
    DecidableEq (Except ε α) := fun a b =>
  match a, b with
  | .ok x, .ok y =>
      if h : x = y then isTrue (by rw [h])
      else isFalse (fun he => by cases he; exact h rfl)
  | .error x, .error y =>
      if h : x = y then isTrue (by rw [h])
      else isFalse (fun he => by cases he; exact h rfl)
  | .ok _, .error _ => isFalse (fun he => by cases he)
  | .error _, .ok _ => isFalse (fun he => by cases he)

/-- A user placed in the `child` OU of the worked example, for
exercising the user-level GPO path. -/
def c3UserTen : User :=
  { id := 10, username := "u10", userPrincipalName := "u10@corp.example",
    email := none, displayName := none, domains := [],
    organizationalUnit := some 2, createdAt := 0, updatedAt := 0 }

/-- The worked-example state with `c3UserTen` created in it. -/
def c3State : DirState :=
  match (do
    let s ← c1State
    create_user s c3UserTen : Except DirectoryError DirState) with
  | .ok s => s
  | .error _ => DirState.empty

/-- The state after `create_user` of `aliceUser` over an empty store. -/
def c6State : DirState :=
  match create_user DirState.empty aliceUser with
  | .ok s => s
  | .error _ => DirState.empty

/-- A one-entry database for exercising `RadDB::remove`. -/
def c10Db : RadDB := { cache := [("a", [1])], file := none }

/-- A concrete witness serializer for the `bincode` parameter: encode
the cache through Mathlib's `Encodable` (strings taken to their
character codes), wrapped in a one-element byte list. -/
def serW (m : List (String × List Nat)) : List Nat :=
  [Encodable.encode (m.map (fun p => (p.1.toList.map Char.toNat, p.2)))]

/-- The decoder matching `serW`. -/
def deserW (bs : List Nat) : Option (List (String × List Nat)) :=
  match bs with
  | [n] =>
      (Encodable.decode n).map
        (List.map (fun p : List Nat × List Nat =>
          ((p.1.map Char.ofNat).asString, p.2)))
  | _ => none

/-! ## Lemmas about the association-list primitives -/

theorem lookup_put_self {K V : Type} [DecidableEq K]
    (m : List (K × V)) (k : K) (v : V) : lookupA (put m k v) k = some v := by
  induction m with
  | nil => simp [put, lookupA]
  | cons p rest ih =>
      obtain ⟨k', v'⟩ := p
      by_cases h : k' = k <;> simp [put, h, lookupA, ih]

theorem lookup_put_ne {K V : Type} [DecidableEq K]
    (m : List (K × V)) (k : K) (v : V) (k' : K) (h : k' ≠ k) :
    lookupA (put m k v) k' = lookupA m k' := by
  have h' : k ≠ k' := Ne.symm h
  induction m with
  | nil => simp [put, lookupA, h']
  | cons p rest ih =>
      obtain ⟨a, b⟩ := p
      by_cases ha : a = k
      · subst ha
        simp [put, lookupA, h']
      · simp only [put, if_neg ha, lookupA]
        by_cases hk : a = k' <;> simp [hk, ih]

theorem lookup_erase_self {K V : Type} [DecidableEq K]
    (m : List (K × V)) (k : K) : lookupA (eraseKey m k) k = none := by
  induction m with
  | nil => rfl
  | cons p rest ih =>
      obtain ⟨a, b⟩ := p
      by_cases ha : a = k <;> simp [eraseKey, ha, lookupA, ih]

theorem lookup_erase_ne {K V : Type} [DecidableEq K]
    (m : List (K × V)) (k k' : K) (h : k' ≠ k) :
    lookupA (eraseKey m k) k' = lookupA m k' := by
  induction m with
  | nil => rfl
  | cons p rest ih =>
      obtain ⟨a, b⟩ := p
      by_cases ha : a = k
      · subst ha
        have h2 : a ≠ k' := Ne.symm h
        simp [eraseKey, lookupA, h2, ih]
      · simp only [eraseKey, if_neg ha, lookupA]
        by_cases hk : a = k' <;> simp [hk, ih]

theorem lookupA_mem {K V : Type} [DecidableEq K]
    (m : List (K × V)) (k : K) (v : V) (h : lookupA m k = some v) :
    (k, v) ∈ m := by
  induction m with
  | nil => simp [lookupA] at h
  | cons p rest ih =>
      obtain ⟨a, b⟩ := p
      by_cases ha : a = k
      · subst ha
        simp [lookupA] at h
        simp [h]
      · simp only [lookupA, if_neg ha] at h
        exact List.mem_cons_of_mem _ (ih h)

theorem lookupA_mem_keys {K V : Type} [DecidableEq K]
    (m : List (K × V)) (k : K) (v : V) (h : lookupA m k = some v) :
    k ∈ m.map Prod.fst := by
  have := lookupA_mem m k v h
  exact List.mem_map_of_mem Prod.fst this

/-! ## C10: `RadDB::remove` frame conditions -/

/-- C10: `RadDB.remove(k)` returns true iff `k` was present, removes `k`
from the in-memory cache only — every other cache entry is unchanged and
the database file is untouched — while `set` re-flushes the file. -/
theorem raddb_remove_frame (db : RadDB) (k k' : String) (v : List Nat)
    (ser : List (String × List Nat) → List Nat) (enc : List Nat → List Nat)
    (nonce : List Nat) (h : k' ≠ k) :
    ((RadDB.remove db k).1 = (RadDB.get db k).isSome)
    ∧ RadDB.get (RadDB.remove db k).2 k = none
    ∧ RadDB.get (RadDB.remove db k).2 k' = RadDB.get db k'
    ∧ (RadDB.remove db k).2.file = db.file
    ∧ (RadDB.set ser enc nonce db k v).file
        = some (nonce ++ enc (ser (put db.cache k v))) := by
  refine ⟨rfl, ?_, ?_, rfl, rfl⟩
  · exact lookup_erase_self db.cache k
  · exact lookup_erase_ne db.cache k k' h

/-- C10 witness: the frame conditions evaluated on a one-entry cache. -/
theorem raddb_remove_frame_witness :
    ((RadDB.remove c10Db "a").1 = (RadDB.get c10Db "a").isSome)
    ∧ RadDB.get (RadDB.remove c10Db "a").2 "a" = none
    ∧ RadDB.get (RadDB.remove c10Db "a").2 "b" = RadDB.get c10Db "b"
    ∧ (RadDB.remove c10Db "a").2.file = c10Db.file
    ∧ (RadDB.set (fun _ => []) id [] c10Db "a" [2]).file
        = some ([] ++ id ((fun _ => []) (put c10Db.cache "a" [2]))) :=
  raddb_remove_frame c10Db "a" "b" [2] (fun _ => []) id [] (by decide)

/-! ## C4: RadDB persistence round-trip -/

theorem storeAll_cache (ser : List (String × List Nat) → List Nat)
    (enc : List Nat → List Nat) (nonce : List Nat) :
    ∀ (pairs : List (String × List Nat)) (db : RadDB),
      (RadDB.storeAll ser enc nonce db pairs).cache
        = pairs.foldl (fun m p => put m p.1 p.2) db.cache := by
  intro pairs
  induction pairs with
  | nil => intro db; rfl
  | cons p rest ih =>
      intro db
      show (RadDB.storeAll ser enc nonce
        (RadDB.set ser enc nonce db p.1 p.2) rest).cache = _
      rw [ih]
      rfl

theorem lookup_foldl_put_not_mem :
    ∀ (pairs m : List (String × List Nat)) (k : String),
      k ∉ pairs.map Prod.fst →
      lookupA (pairs.foldl (fun m p => put m p.1 p.2) m) k = lookupA m k := by
  intro pairs
  induction pairs with
  | nil => intro m k _; rfl
  | cons p rest ih =>
      intro m k h
      simp only [List.map_cons, List.mem_cons] at h
      push_neg at h
      obtain ⟨h1, h2⟩ := h
      show lookupA (rest.foldl (fun m p => put m p.1 p.2) (put m p.1 p.2)) k
        = lookupA m k
      rw [ih _ _ h2, lookup_put_ne _ _ _ _ h1]

theorem lookup_foldl_put_mem :
    ∀ (pairs m : List (String × List Nat)) (k : String) (v : List Nat),
      (pairs.map Prod.fst).Nodup → (k, v) ∈ pairs →
      lookupA (pairs.foldl (fun m p => put m p.1 p.2) m) k = some v := by
  intro pairs
  induction pairs with
  | nil => intro m k v _ hm; cases hm
  | cons p rest ih =>
      intro m k v hnd hm
      obtain ⟨a, b⟩ := p
      simp only [List.map_cons, List.nodup_cons] at hnd
      obtain ⟨hna, hnd2⟩ := hnd
      rcases List.mem_cons.mp hm with heq | hm2
      · cases heq
        show lookupA (rest.foldl (fun m p => put m p.1 p.2) (put m k v)) k
          = some v
        rw [lookup_foldl_put_not_mem rest _ k hna, lookup_put_self]
      · exact ih (put m a b) k v hnd2 hm2

/-- C4: store any finite list of key/value pairs into a fresh `RadDB`,
flush, and re-open the written file with the same key material: every
stored key reads back its (last written) value and every other key reads
back `None`.  The `bincode` and AES-GCM round-trips — contracts of
external crates — are hypotheses (`hser`, `hdec`). -/
theorem raddb_roundtrip
    (ser : List (String × List Nat) → List Nat)
    (deser : List Nat → Option (List (String × List Nat)))
    (enc : List Nat → List Nat)
    (dec : List Nat → List Nat → Option (List Nat))
    (nonce : List Nat) (pairs : List (String × List Nat))
    (hser : ∀ m, deser (ser m) = some m)
    (hdec : ∀ msg, dec nonce (enc msg) = some msg)
    (hnonce : nonce.length = 12) :
    ∃ db2 : RadDB,
      RadDB.openWith deser dec
        (RadDB.flushWith ser enc nonce
          (RadDB.storeAll ser enc nonce RadDB.empty pairs)).file = .ok db2
      ∧ db2.cache = mapOf pairs
      ∧ ((pairs.map Prod.fst).Nodup →
          ∀ k v, (k, v) ∈ pairs → RadDB.get db2 k = some v)
      ∧ (∀ k, k ∉ pairs.map Prod.fst → RadDB.get db2 k = none) := by
  have hcache : (RadDB.storeAll ser enc nonce RadDB.empty pairs).cache
      = mapOf pairs := by
    rw [storeAll_cache]; rfl
  set db1 := RadDB.storeAll ser enc nonce RadDB.empty pairs with hdb1
  set bytes := nonce ++ enc (ser db1.cache) with hbytes
  have hlen : 12 ≤ bytes.length := by
    have : bytes.length = nonce.length + (enc (ser db1.cache)).length :=
      List.length_append _ _
    omega
  have hne : ¬ bytes = [] := by
    intro hE
    rw [hE] at hlen
    simp at hlen
  have hlt : ¬ bytes.length < 12 := by omega
  have htake : bytes.take 12 = nonce := by
    rw [hbytes, ← hnonce]
    exact List.take_left _ _
  have hdrop : bytes.drop 12 = enc (ser db1.cache) := by
    rw [hbytes, ← hnonce]
    exact List.drop_left _ _
  refine ⟨{ cache := mapOf pairs, file := some bytes }, ?_, rfl, ?_, ?_⟩
  · show RadDB.openWith deser dec (some bytes) = _
    simp only [RadDB.openWith, if_neg hne, if_neg hlt, htake, hdrop,
      hdec, hser, hcache]
  · intro hnd k v hm
    show lookupA (mapOf pairs) k = some v
    exact lookup_foldl_put_mem pairs [] k v hnd hm
  · intro k hk
    show lookupA (mapOf pairs) k = none
    rw [mapOf, lookup_foldl_put_not_mem pairs [] k hk]
    rfl

theorem mapKeys_roundtrip (m : List (String × List Nat)) :
    (m.map (fun p => (p.1.toList.map Char.toNat, p.2))).map
      (fun p : List Nat × List Nat => ((p.1.map Char.ofNat).asString, p.2))
      = m := by
  induction m with
  | nil => rfl
  | cons p rest ih =>
      obtain ⟨s, v⟩ := p
      have hs2 : ((s.toList.map Char.toNat).map Char.ofNat).asString = s := by
        rw [List.map_map]
        have hs : s.toList.map (Char.ofNat ∘ Char.toNat) = s.toList := by
          induction s.toList with
          | nil => rfl
          | cons c cs ih2 => simp [ih2, Char.ofNat_toNat, Function.comp]
        rw [hs]
        exact rfl
      simp only [List.map_cons, ih, hs2]

theorem deserW_serW (m : List (String × List Nat)) :
    deserW (serW m) = some m := by
  show (Encodable.decode (Encodable.encode
      (m.map (fun p => (p.1.toList.map Char.toNat, p.2))))).map
      (List.map (fun p : List Nat × List Nat =>
        ((p.1.map Char.ofNat).asString, p.2))) = some m
  rw [Encodable.encodek]
  show some _ = some m
  rw [mapKeys_roundtrip]

/-- C4 witness: the round-trip evaluated with a concrete `Encodable`
serializer and the identity cipher on two stored pairs. -/
theorem raddb_roundtrip_witness :
    ∃ db2 : RadDB,
      RadDB.openWith deserW (fun _ c => some c)
        (RadDB.flushWith serW id (List.replicate 12 0)
          (RadDB.storeAll serW id (List.replicate 12 0) RadDB.empty
            [("a", [1]), ("b", [2])])).file = .ok db2
      ∧ db2.cache = mapOf [("a", [1]), ("b", [2])]
      ∧ (([("a", [1]), ("b", [2])].map Prod.fst).Nodup →
          ∀ k v, (k, v) ∈ [("a", [1]), ("b", [2])] →
            RadDB.get db2 k = some v)
      ∧ (∀ k, k ∉ [("a", [1]), ("b", [2])].map Prod.fst →
          RadDB.get db2 k = none) :=
  raddb_roundtrip serW deserW id (fun _ c => some c) (List.replicate 12 0)
    [("a", [1]), ("b", [2])] deserW_serW (fun _ => rfl) (by decide)

/-! ## C5: SID string rendering -/

/-- C5: `SecurityIdentifier::to_string` on the NT-authority SID
`{rev 1, authority [0,0,0,0,0,5], subs [21,513]}`.  The code's authority
arithmetic applies the shifts to the wrong bytes: the rendered authority
is `327680 = 5 * 2^16`, not the big-endian value `5` required by the
claim (and by the `S-1-5-…` comments in `src/models/group.rs` and
`src/models/domain_controller.rs`). -/
theorem sid_render_at_nt_authority :
    ntSid.render = "S-1-327680-21-513"
    ∧ specSidRender ntSid = "S-1-5-21-513"
    ∧ sidAuthorityValue [0, 0, 0, 0, 0, 5] = 327680
    ∧ specSidAuthorityValue [0, 0, 0, 0, 0, 5] = 5
    ∧ ntSid.render ≠ specSidRender ntSid := by decide

/-! ## C7: error variants on missing mutation targets -/

/-- C7 counterexample: `delete_user` on a missing id yields
`InvalidInput("User not found")` (via `ok_or(&str)` and
`From<&str> for DirectoryError`), not any `NotFound`. -/
theorem delete_user_missing_not_notfound :
    delete_user DirState.empty 7 = .error (.invalidInput "User not found")
    ∧ (match delete_user DirState.empty 7 with
       | .error (.notFound _) => False
       | _ => True) :=
  ⟨by decide, trivial⟩

/-- C7 amended: on a missing target, `add_member_to_group` and
`remove_member_from_group` return `NotFound`, while `delete_user`,
`rename_user`, `delete_group` and `delete_ou` — which go through
`.ok_or("...")?` — return `InvalidInput` with the same message. -/
theorem mutation_missing_target_errors (s : DirState)
    (userId groupId ouId : Uuid) :
    (lookupA s.users userId = none →
      delete_user s userId = .error (.invalidInput "User not found")
      ∧ rename_user s userId none none
          = .error (.invalidInput "User not found"))
    ∧ (lookupA s.groups groupId = none →
      add_member_to_group s groupId userId
          = .error (.notFound "Group not found")
      ∧ remove_member_from_group s groupId userId
          = .error (.notFound "Group not found")
      ∧ delete_group s groupId = .error (.invalidInput "Group not found"))
    ∧ (lookupA s.ous ouId = none →
      delete_ou s ouId = .error (.invalidInput "OU not found")) := by
  refine ⟨fun h => ⟨?_, ?_⟩, fun h => ⟨?_, ?_, ?_⟩, fun h => ?_⟩ <;>
    simp [delete_user, rename_user, add_member_to_group,
      remove_member_from_group, delete_group, delete_ou,
      strToDirectoryError, h]

/-- C7 witness: the error variants evaluated on the empty store. -/
theorem mutation_missing_target_errors_witness :
    delete_user DirState.empty 7 = .error (.invalidInput "User not found")
    ∧ add_member_to_group DirState.empty 8 7
        = .error (.notFound "Group not found")
    ∧ delete_ou DirState.empty 9 = .error (.invalidInput "OU not found") :=
  ⟨((mutation_missing_target_errors DirState.empty 7 8 9).1 rfl).1,
   ((mutation_missing_target_errors DirState.empty 7 8 9).2.1 rfl).1,
   (mutation_missing_target_errors DirState.empty 7 8 9).2.2 rfl⟩

/-! ## C9: `create_gpo` and `all_gpos_index` -/

/-- C9 counterexample: after `create_gpo` on the empty store the GPO
record is live but `all_gpos_index` is still empty, so the created id is
not listed. -/
theorem create_gpo_skips_all_gpos_index :
    (create_gpo DirState.empty gpoLone).allGposIndex = []
    ∧ gpoLone.id ∉ (create_gpo DirState.empty gpoLone).allGposIndex
    ∧ get_gpo (create_gpo DirState.empty gpoLone) gpoLone.id
        = some gpoLone := by
  refine ⟨rfl, by decide, by decide⟩

/-- C9 amended: `create_gpo` writes the record (readable back by id) but
leaves `all_gpos_index` exactly as it was — the source never touches
that key. -/
theorem create_gpo_preserves_all_gpos_index (s : DirState)
    (g : GroupPolicy) :
    (create_gpo s g).allGposIndex = s.allGposIndex
    ∧ get_gpo (create_gpo s g) g.id = some g := by
  constructor
  · rfl
  · show lookupA (put s.gpos g.id g) g.id = some g
    exact lookup_put_self s.gpos g.id g

/-! ## C6: case sensitivity of username/email lookups -/

/-- C6 counterexample: the username index key is the exact stored
string.  After creating a user named `"Alice"`, looking up `"alice"` —
equal up to ASCII case folding — returns `none`, while the exact-case
lookup returns the record. -/
theorem case_insensitive_lookup_refuted :
    create_user DirState.empty aliceUser = .ok c6State
    ∧ find_user_by_username c6State "alice" = none
    ∧ eqIgnoreAsciiCase "alice" "Alice" = true
    ∧ find_user_by_username c6State "Alice" = some aliceUser := by decide

/-- C6 amended: after a successful `create_user`, looking the user up by
the exact stored username (and exact stored email, when present)
returns the record, which preserves the original case; no case folding
is applied to user index keys. -/
theorem create_user_exact_case_lookup (s : DirState) (u : User)
    (s2 : DirState) (h : create_user s u = .ok s2) :
    find_user_by_username s2 u.username = some u
    ∧ u.email.elim True (fun e => find_user_by_email s2 e = some u)
    ∧ get_user s2 u.id = some u := by
  unfold create_user at h
  split at h
  · cases h
  · split at h
    · cases h
    · injection h with h2
      subst h2
      cases he : u.email <;>
        simp [he, find_user_by_username, find_user_by_email, get_user,
          lookup_put_self, lookup_put_ne, Option.elim]

/-- C6 witness: the exact-case lookups evaluated on the `aliceUser`
store. -/
theorem create_user_exact_case_lookup_witness :
    find_user_by_username c6State aliceUser.username = some aliceUser
    ∧ aliceUser.email.elim True
        (fun e => find_user_by_email c6State e = some aliceUser)
    ∧ get_user c6State aliceUser.id = some aliceUser :=
  create_user_exact_case_lookup DirState.empty aliceUser c6State (by decide)

/-! ## Lemmas about the stable sort and the dedup pass -/

theorem insertLe_perm {α : Type} (le : α → α → Bool) (x : α) (l : List α) :
    (insertLe le x l).Perm (x :: l) := by
  induction l with
  | nil => exact List.Perm.refl _
  | cons y ys ih =>
      by_cases h : le y x = true
      · simp only [insertLe, if_pos h]
        exact (ih.cons y).trans (List.Perm.swap x y ys)
      · simp only [insertLe, if_neg h]
        exact List.Perm.refl _

theorem stableSortBy_perm {α : Type} (le : α → α → Bool) :
    ∀ (l acc : List α), (stableSortBy le acc l).Perm (acc ++ l) := by
  intro l
  induction l with
  | nil => intro acc; simp [stableSortBy]
  | cons x xs ih =>
      intro acc
      show (stableSortBy le (insertLe le x acc) xs).Perm _
      have h2 : (insertLe le x acc ++ xs).Perm ((x :: acc) ++ xs) :=
        (insertLe_perm le x acc).append_right xs
      have h4 : (x :: (acc ++ xs)).Perm (acc ++ x :: xs) :=
        List.perm_middle.symm
      exact (ih (insertLe le x acc)).trans (h2.trans h4)

theorem sortGpos_perm (l : List GroupPolicy) : (sortGpos l).Perm l := by
  simpa using stableSortBy_perm gpoLe l []

theorem gpoLe_total (a b : GroupPolicy) :
    gpoLe a b = true ∨ gpoLe b a = true := by
  unfold gpoLe
  cases ha : a.enforced <;> cases hb : b.enforced <;> simp [ha, hb] <;> omega

theorem gpoLe_trans (a b c : GroupPolicy) (h1 : gpoLe a b = true)
    (h2 : gpoLe b c = true) : gpoLe a c = true := by
  unfold gpoLe at h1 h2 ⊢
  cases ha : a.enforced <;> cases hb : b.enforced <;> cases hc : c.enforced <;>
    simp [ha, hb, hc] at h1 h2 ⊢ <;> omega

theorem pairwise_insertLe (x : GroupPolicy) (l : List GroupPolicy)
    (hl : l.Pairwise (fun a b => gpoLe a b = true)) :
    (insertLe gpoLe x l).Pairwise (fun a b => gpoLe a b = true) := by
  induction l with
  | nil => simp [insertLe]
  | cons y ys ih =>
      rcases List.pairwise_cons.mp hl with ⟨hy, hys⟩
      by_cases h : gpoLe y x = true
      · simp only [insertLe, if_pos h]
        refine List.pairwise_cons.mpr ⟨?_, ih hys⟩
        intro a ha
        have hmem : a = x ∨ a ∈ ys := by
          have := (insertLe_perm gpoLe x ys).mem_iff.mp ha
          simpa using this
        rcases hmem with rfl | hmem
        · exact h
        · exact hy a hmem
      · simp only [insertLe, if_neg h]
        have hx : gpoLe x y = true := by
          rcases gpoLe_total x y with h1 | h1
          · exact h1
          · exact absurd h1 h
        refine List.pairwise_cons.mpr ⟨?_, hl⟩
        intro a ha
        rcases List.mem_cons.mp ha with rfl | hmem
        · exact hx
        · exact gpoLe_trans x y a hx (hy a hmem)

theorem pairwise_stableSortBy :
    ∀ (l acc : List GroupPolicy),
      acc.Pairwise (fun a b => gpoLe a b = true) →
      (stableSortBy gpoLe acc l).Pairwise (fun a b => gpoLe a b = true) := by
  intro l
  induction l with
  | nil => intro acc h; exact h
  | cons x xs ih => intro acc h; exact ih _ (pairwise_insertLe x acc h)

theorem sortGpos_sorted (l : List GroupPolicy) :
    (sortGpos l).Pairwise (fun a b => gpoLe a b = true) :=
  pairwise_stableSortBy l [] List.Pairwise.nil

theorem dedupByIdGo_ids_nodup :
    ∀ (l : List GroupPolicy) (seen : List Uuid),
      ((dedupByIdGo seen l).map (fun g => g.id)).Nodup
      ∧ ∀ g ∈ dedupByIdGo seen l, g.id ∉ seen := by
  intro l
  induction l with
  | nil =>
      intro seen
      exact ⟨List.nodup_nil, by simp [dedupByIdGo]⟩
  | cons g gs ih =>
      intro seen
      by_cases h : g.id ∈ seen
      · simp only [dedupByIdGo, if_pos h]
        exact ih seen
      · simp only [dedupByIdGo, if_neg h]
        obtain ⟨ihn, ihs⟩ := ih (g.id :: seen)
        refine ⟨?_, ?_⟩
        · simp only [List.map_cons, List.nodup_cons]
          refine ⟨?_, ihn⟩
          intro hmem
          rcases List.mem_map.mp hmem with ⟨g2, hg2, hid⟩
          have h2 := ihs g2 hg2
          rw [hid] at h2
          exact h2 (by simp)
        · intro g2 hg2
          rcases List.mem_cons.mp hg2 with rfl | hmem
          · exact h
          · intro hseen
            exact ihs g2 hmem (List.mem_cons_of_mem _ hseen)

theorem dedupById_ids_nodup (l : List GroupPolicy) :
    ((dedupById l).map (fun g => g.id)).Nodup :=
  (dedupByIdGo_ids_nodup l []).1

/-! ## C3: the user-level effective-GPO list -/

/-- C3: whenever `get_effective_gpos_for_user` succeeds, the returned
list has pairwise-distinct GPO ids and is sorted by enforced descending
then order ascending (the comparator of the final `sort_by`). -/
theorem effective_gpos_for_user_nodup_sorted (s : DirState) (userId : Uuid)
    (l : List GroupPolicy)
    (h : get_effective_gpos_for_user s userId = .ok l) :
    (l.map (fun g => g.id)).Nodup
    ∧ l.Pairwise (fun a b => gpoLe a b = true) := by
  have hshape : ∃ all, l = sortGpos (dedupById all) := by
    unfold get_effective_gpos_for_user at h
    split at h
    · cases h
    · split at h
      · cases h
      · injection h with h2
        exact ⟨_, h2.symm⟩
  obtain ⟨all, rfl⟩ := hshape
  refine ⟨?_, sortGpos_sorted _⟩
  have hperm := (sortGpos_perm (dedupById all)).map (fun g => g.id)
  exact hperm.nodup_iff.mpr (dedupById_ids_nodup all)

/-- C3 witness: the worked-example user resolves to `[C, B, A]`, which
is duplicate-free and sorted. -/
theorem effective_gpos_for_user_nodup_sorted_witness :
    (([gpoC, gpoB, gpoA].map (fun g => g.id)).Nodup
    ∧ [gpoC, gpoB, gpoA].Pairwise (fun a b => gpoLe a b = true)) :=
  effective_gpos_for_user_nodup_sorted c3State 10 [gpoC, gpoB, gpoA]
    (by decide)

/-! ## C2: termination and cycle detection of the OU walk -/

theorem length_filter_le_of_imp {α : Type} (p q : α → Bool) (l : List α)
    (h : ∀ a, q a = true → p a = true) :
    (l.filter q).length ≤ (l.filter p).length := by
  induction l with
  | nil => simp
  | cons a rest ih =>
      by_cases hq : q a = true
      · simp [List.filter_cons, hq, h a hq]
        omega
      · have hqf : q a = false := by revert hq; cases q a <;> simp
        by_cases hp : p a = true
        · simp [List.filter_cons, hqf, hp]
          omega
        · have hpf : p a = false := by revert hp; cases p a <;> simp
          simp [List.filter_cons, hqf, hpf]
          exact ih

theorem filter_notmem_cons_lt (l visited : List Uuid) (x : Uuid)
    (hx : x ∈ l) (hnx : x ∉ visited) :
    (l.filter (fun k => decide (k ∉ x :: visited))).length
      < (l.filter (fun k => decide (k ∉ visited))).length := by
  induction l with
  | nil => cases hx
  | cons a rest ih =>
      have himp : ∀ k : Uuid, (decide (k ∉ x :: visited)) = true →
          (decide (k ∉ visited)) = true := by
        intro k hk
        simp only [decide_eq_true_eq, List.mem_cons] at hk ⊢
        exact fun hm => hk (Or.inr hm)
      by_cases hax : a = x
      · subst hax
        have hq : (decide (a ∉ a :: visited)) = false := by simp
        have hp : (decide (a ∉ visited)) = true := by simpa using hnx
        have hle := length_filter_le_of_imp
          (fun k => decide (k ∉ visited)) (fun k => decide (k ∉ a :: visited))
          rest himp
        rw [List.filter_cons, List.filter_cons, hq, hp,
          if_neg Bool.false_ne_true, if_pos rfl, List.length_cons]
        omega
      · have hqa : (decide (a ∉ x :: visited)) = (decide (a ∉ visited)) := by
          simp [List.mem_cons, hax]
        have hx2 : x ∈ rest := by
          rcases List.mem_cons.mp hx with h | h
          · exact absurd h.symm hax
          · exact h
        rw [List.filter_cons, List.filter_cons, hqa]
        by_cases hpa : (decide (a ∉ visited)) = true
        · rw [if_pos hpa, if_pos hpa, List.length_cons, List.length_cons]
          exact Nat.succ_lt_succ (ih hx2)
        · rw [if_neg hpa, if_neg hpa]
          exact ih hx2

theorem remainOus_lt (s : DirState) (visited : List Uuid) (x : Uuid)
    (hx : x ∈ s.ous.map Prod.fst) (hnx : x ∉ visited) :
    remainOus s (x :: visited) < remainOus s visited :=
  filter_notmem_cons_lt (s.ous.map Prod.fst) visited x hx hnx

theorem gposLoopF_isSome (s : DirState) :
    ∀ (fuel : Nat) (visited : List Uuid) (acc : List GroupPolicy)
      (cur : Option Uuid), remainOus s visited < fuel →
      (gposLoopF s fuel visited acc cur).isSome = true := by
  intro fuel
  induction fuel with
  | zero => intro visited acc cur h; omega
  | succ n ih =>
      intro visited acc cur h
      match cur with
      | none => rfl
      | some x =>
          by_cases hv : x ∈ visited
          · simp [gposLoopF, hv]
          · cases hou : lookupA s.ous x with
            | none => simp [gposLoopF, hv, hou]
            | some ou =>
                by_cases hb : (!acc.isEmpty && ou.blockInheritance) = true
                · simp [gposLoopF, hv, hou, hb]
                · simp only [gposLoopF, if_neg hv, hou, if_neg hb]
                  apply ih
                  have hxk : x ∈ s.ous.map Prod.fst :=
                    lookupA_mem_keys _ _ _ hou
                  have := remainOus_lt s visited x hxk hv
                  omega

theorem gposLoopF_of_walkRevisits (s : DirState) (hnb : noBlocks s) :
    ∀ (fuel : Nat) (visited : List Uuid) (acc : List GroupPolicy)
      (cur : Option Uuid),
      walkRevisitsF s fuel visited cur = true →
      gposLoopF s fuel visited acc cur
        = some (.error (.invalidInput "Circular OU hierarchy detected")) := by
  intro fuel
  induction fuel with
  | zero =>
      intro visited acc cur hw
      simp [walkRevisitsF] at hw
  | succ n ih =>
      intro visited acc cur hw
      match cur with
      | none => simp [walkRevisitsF] at hw
      | some x =>
          by_cases hv : x ∈ visited
          · simp [gposLoopF, hv]
          · cases hou : lookupA s.ous x with
            | none => simp [walkRevisitsF, hv, hou] at hw
            | some ou =>
                have hblock : ou.blockInheritance = false :=
                  hnb (x, ou) (lookupA_mem _ _ _ hou)
                simp only [walkRevisitsF, if_neg hv, hou] at hw
                have hb : ¬ ((!acc.isEmpty && ou.blockInheritance) = true) := by
                  simp [hblock]
                simp only [gposLoopF, if_neg hv, hou, if_neg hb]
                exact ih _ _ _ hw

/-- C2 amended: the OU walk of `get_effective_gpos_for_ou` terminates
within `|stored OUs| + 1` rounds for every state and start (the fuelled
loop always yields a result at that bound — never a partial list, since
an error carries no list); and when the parent chain revisits an
already-visited OU the result is exactly
`InvalidInput("Circular OU hierarchy detected")` *provided no stored OU
sets `block_inheritance`*.  The proviso is forced by the code:
an ancestor with `block_inheritance`, reached with a non-empty
accumulator, takes the inheritance cut-off and ends a cyclic walk with
`Ok` before any revisit — see `cyclic_chain_not_always_detected`. -/
theorem gpo_resolution_terminates (s : DirState) (ouId : Uuid) :
    (gposLoopF s (s.ous.length + 1) [] [] (some ouId)).isSome = true
    ∧ (noBlocks s → walkRevisits s ouId = true →
        get_effective_gpos_for_ou s ouId
          = .error (.invalidInput "Circular OU hierarchy detected")) := by
  constructor
  · apply gposLoopF_isSome
    have h1 : remainOus s [] ≤ s.ous.length := by
      unfold remainOus
      simp
    omega
  · intro hnb hw
    unfold get_effective_gpos_for_ou
    rw [gposLoopF_of_walkRevisits s hnb _ _ _ _ hw]
    rfl

/-- C2 witness: the two-OU parent cycle resolves to the circularity
error. -/
theorem gpo_resolution_terminates_witness :
    (gposLoopF cycState (cycState.ous.length + 1) [] [] (some 1)).isSome
      = true
    ∧ get_effective_gpos_for_ou cycState 1
        = .error (.invalidInput "Circular OU hierarchy detected") :=
  ⟨(gpo_resolution_terminates cycState 1).1,
   (gpo_resolution_terminates cycState 1).2 (by decide) (by decide)⟩

/-- C2 counterexample: a cyclic parent chain does not always yield the
circularity error.  In `blkCycState` the parent chain from OU 1
revisits an already-visited OU (`1 → 2 → 1`), yet
`get_effective_gpos_for_ou` returns `Ok([G])`: OU 2 carries
`block_inheritance` and is reached with a non-empty accumulator, so the
inheritance cut-off ends the walk before the revisit. -/
theorem cyclic_chain_not_always_detected :
    walkRevisits blkCycState 1 = true
    ∧ get_effective_gpos_for_ou blkCycState 1 = .ok [gpoG]
    ∧ get_effective_gpos_for_ou blkCycState 1
        ≠ .error (.invalidInput "Circular OU hierarchy detected") := by
  decide

/-! ## C1: the worked GPO-inheritance example -/

/-- C1 counterexample: on the spec's own scenario the code returns the
id list `[B, C, A]` both before and after blocking inheritance on
`child` — not `[C, B, A]` and `[B, C]` as claimed.  The walk appends
each level's sorted GPOs child-first (`child` gives `[B]`, then `root`
gives `[C, A]`) with no final re-sort, and the cut-off only fires on an
*ancestor* with `block_inheritance` when the accumulator is already
non-empty, so blocking on the start OU changes nothing. -/
theorem gpo_inheritance_example_refuted :
    c1Run = .ok ([gpoB.id, gpoC.id, gpoA.id], [gpoB.id, gpoC.id, gpoA.id])
    ∧ c1Run ≠ .ok ([gpoC.id, gpoB.id, gpoA.id], [gpoB.id, gpoC.id]) := by
  decide

/-- C1 amended: `get_effective_gpos_for_ou(child)` returns `[B, C, A]`,
and still `[B, C, A]` after `set_block_inheritance(child, true)`;
the result is the same for both iteration orders of `root`'s stored
two-element `gpo_link` set. -/
theorem gpo_inheritance_example_result :
    c1Run = .ok ([gpoB.id, gpoC.id, gpoA.id], [gpoB.id, gpoC.id, gpoA.id])
    ∧ c1RunSwapped
        = .ok ([gpoB.id, gpoC.id, gpoA.id], [gpoB.id, gpoC.id, gpoA.id]) := by
  decide



/-! ## C8: the `created_at>=` LDAP filter -/

/-- C8: `Filter::parse("(created_at>=v)")` splits at the *first* `=`,
which is the one inside `>=`, so the attribute comes out as
`"created_at>"` and the `attr.ends_with(">=")` branch (which would build
`GreaterOrEqual`) can never fire — the attribute slice stops before the
first `=` and so cannot contain one.  The parse therefore succeeds with
`Equality("created_at>", v)`, and `matches_user` maps that unknown
attribute to `false` for every user — although a directly constructed
`GreaterOrEqual("created_at", v)` filter would compare timestamps as the
claim describes. -/
theorem created_at_ge_filter_misparsed (parseTs : String → Option Instant)
    (u : User) :
    Filter.parse c8FilterStr = .ok (.equality "created_at>" c8Value)
    ∧ matchesUser parseTs (.equality "created_at>" c8Value) u = false
    ∧ matchesUser parseTs (.greaterOrEqual "created_at" c8Value) u
        = decide (u.createdAt ≥ (parseTs c8Value).getD 0) := by
  refine ⟨rfl, rfl, rfl⟩

end Nextdomen
